import Mathlib

/-!
Verification development for the hotel reservation system
(`hotel_system/hotel.py`, `hotel_system/customer.py`,
`hotel_system/reservation.py`).

The embedding follows the source closely:

* Python dictionaries (the JSON-backed collections and the serialized
  records) are modeled as association lists `List (String × α)` with
  Python `dict` semantics: key lookup finds the first (unique) binding,
  assignment replaces an existing binding in place and appends a fresh one.
* The JSON file of a Record Store is modeled as a `FileState`: absent,
  unparseable, or a parsed top-level object.  `json.dump`/`json.load`
  are treated as inverses on the structured values actually stored
  (strings, ints, finite floats, lists, objects), which they are.
* Python scalar values are the inductive `PyVal`.  Finite Python floats
  are modeled by their exact rational value; the repository only stores,
  coerces and compares ratings, it never performs float arithmetic.
* Record identifiers are strings throughout, as supplied by the CLI
  (`main.py` reads every id with `input().strip()`).
* Mutating class methods (`reserve_room`, `cancel_reservation`,
  `create`, `cancel`, `modify`) each load a snapshot, mutate it and save
  it back; with file I/O abstracted they become pure functions from the
  loaded collection(s) to the saved collection(s) plus the returned
  success value.
-/

namespace HotelSys

/-- Python/JSON values as they occur in the three data files. -/
inductive PyVal : Type
  | VStr (s : String)
  | VInt (n : Int)
  | VFloat (q : Rat)
  | VBool (b : Bool)
  | VNone
  | VList (elems : List PyVal)
  | VDict (entries : List (String × PyVal))

/-- Key lookup in a Python dict (`d[k]` / `k in d`), first binding wins. -/
def dlookup {α : Type} : List (String × α) → String → Option α
  | [], _ => none
  | (k, v) :: t, key => if k = key then some v else dlookup t key

/-- Python dict assignment `d[k] = v`: replace the existing binding in
place, or append a fresh binding at the end. -/
def dinsert {α : Type} : List (String × α) → String → α → List (String × α)
  | [], key, v => [(key, v)]
  | (k, w) :: t, key, v =>
      if k = key then (k, v) :: t else (k, w) :: dinsert t key v

/-- The keys of a Python dict, in insertion order. -/
def dkeys {α : Type} (l : List (String × α)) : List String :=
  l.map Prod.fst

/-- Python `d.get(k, default)`. -/
def dget {α : Type} (l : List (String × α)) (key : String) (dflt : α) : α :=
  match dlookup l key with
  | some v => v
  | none => dflt

/-- Python `str(x)`.  Total: `str` never raises.  Only the string case is
depended on by any theorem below; the images of the other constructors
stand in for Python's textual representations. -/
def pyStr : PyVal → String
  | .VStr s => s
  | .VInt n => toString n
  | .VFloat q => toString q
  | .VBool b => if b then "True" else "False"
  | .VNone => "None"
  | .VList _ => "[...]"
  | .VDict _ => "\x7b...\x7d"

/-- Python `int(s)` on a string: an optional sign followed by digits
(the surrounding-whitespace and underscore liberties of CPython are not
exercised by this repository). -/
def pyIntOfString (s : String) : Option Int :=
  let core (cs : List Char) : Option Nat :=
    if cs ≠ [] ∧ cs.all Char.isDigit then
      some (cs.foldl (fun acc c => acc * 10 + (c.toNat - '0'.toNat)) 0)
    else none
  match s.toList with
  | '-' :: rest => (core rest).map (fun n => -(n : Int))
  | '+' :: rest => (core rest).map (fun n => (n : Int))
  | cs => (core cs).map (fun n => (n : Int))

/-- Truncation toward zero, the behavior of Python `int(float)`. -/
def ratTrunc (q : Rat) : Int :=
  if 0 ≤ q then q.floor else q.ceil

/-- Python `int(x)`: identity on ints, truncation on floats, 0/1 on
bools, literal parsing on strings; `TypeError` (`none`) otherwise. -/
def pyInt : PyVal → Option Int
  | .VInt n => some n
  | .VFloat q => some (ratTrunc q)
  | .VBool b => some (if b then 1 else 0)
  | .VStr s => pyIntOfString s
  | _ => none

/-- Python `float(s)` on a string: an optional sign, digits, and an
optional fractional part (exponent and inf/nan spellings are not
exercised by this repository). -/
def pyFloatOfString (s : String) : Option Rat :=
  let digits (cs : List Char) : Option Nat :=
    if cs ≠ [] ∧ cs.all Char.isDigit then
      some (cs.foldl (fun acc c => acc * 10 + (c.toNat - '0'.toNat)) 0)
    else none
  let core (cs : List Char) : Option Rat :=
    match cs.splitOn '.' with
    | [whole] => (digits whole).map (fun n => (n : Rat))
    | [whole, frac] =>
        match digits whole, digits frac with
        | some w, some f => some ((w : Rat) + (f : Rat) / ((10 : Rat) ^ frac.length))
        | _, _ => none
    | _ => none
  match s.toList with
  | '-' :: rest => (core rest).map (fun q => -q)
  | '+' :: rest => (core rest).map (fun q => q)
  | cs => core cs

/-- Python `float(x)`: identity on floats, exact on ints, 0.0/1.0 on
bools, literal parsing on strings; `TypeError` (`none`) otherwise. -/
def pyFloat : PyVal → Option Rat
  | .VFloat q => some q
  | .VInt n => some (n : Rat)
  | .VBool b => some (if b then 1 else 0)
  | .VStr s => pyFloatOfString s
  | _ => none

/-- Python `list(x)` applied to the stored reservation-id sequence.
The ledgers this system writes hold lists of id strings, the modeled
domain; any other value is outside it (`none`). -/
def pyStrList : PyVal → Option (List String)
  | .VList elems =>
      elems.foldr
        (fun v acc =>
          match v, acc with
          | .VStr s, some t => some (s :: t)
          | _, _ => none)
        (some [])
  | _ => none

/-- A hotel record (`Hotel.__init__` plus the two ledger fields). -/
structure Hotel : Type where
  hotel_id : String
  name : String
  location : String
  rating : Rat
  total_rooms : Int
  available_rooms : Int
  reservations : List String
deriving DecidableEq, Repr

/-- A customer record (`Customer.__init__`). -/
structure Customer : Type where
  customer_id : String
  name : String
  email : String
  phone : String
deriving DecidableEq, Repr

/-- A reservation record (`Reservation.__init__` plus `status`). -/
structure Reservation : Type where
  reservation_id : String
  customer_id : String
  hotel_id : String
  check_in : String
  check_out : String
  status : String
deriving DecidableEq, Repr

/-- The backing file of one Record Store: missing, unparseable
(`json.JSONDecodeError`), or a parsed top-level JSON object. -/
inductive FileState : Type
  | absent
  | corrupt
  | content (raw : List (String × PyVal))

namespace Hotel

/-- Source `Hotel.to_dict`. -/
def to_dict (h : Hotel) : PyVal :=
  .VDict
    [ ("hotel_id", .VStr h.hotel_id),
      ("name", .VStr h.name),
      ("location", .VStr h.location),
      ("rating", .VFloat h.rating),
      ("total_rooms", .VInt h.total_rooms),
      ("available_rooms", .VInt h.available_rooms),
      ("reservations", .VList (h.reservations.map .VStr)) ]

/-- Source `Hotel.from_dict`: build the record from the five required fields
(missing key or failed coercion gives `None`), then overwrite
`available_rooms` (default: `total_rooms`) and `reservations`
(default: empty list). -/
def from_dict (data : PyVal) : Option Hotel :=
  match data with
  | .VDict d => do
      let hv ← dlookup d "hotel_id"
      let nv ← dlookup d "name"
      let lv ← dlookup d "location"
      let rv ← dlookup d "rating"
      let tv ← dlookup d "total_rooms"
      let rating ← pyFloat rv
      let total ← pyInt tv
      let avail ← pyInt (dget d "available_rooms" (.VInt total))
      let rs ← pyStrList (dget d "reservations" (.VList []))
      some
        { hotel_id := pyStr hv, name := pyStr nv, location := pyStr lv,
          rating := rating, total_rooms := total,
          available_rooms := avail, reservations := rs }
  | _ => none

end Hotel

namespace Customer

/-- Source `Customer.to_dict`. -/
def to_dict (c : Customer) : PyVal :=
  .VDict
    [ ("customer_id", .VStr c.customer_id),
      ("name", .VStr c.name),
      ("email", .VStr c.email),
      ("phone", .VStr c.phone) ]

/-- Source `Customer.from_dict`. -/
def from_dict (data : PyVal) : Option Customer :=
  match data with
  | .VDict d => do
      let cv ← dlookup d "customer_id"
      let nv ← dlookup d "name"
      let ev ← dlookup d "email"
      let pv ← dlookup d "phone"
      some
        { customer_id := pyStr cv, name := pyStr nv,
          email := pyStr ev, phone := pyStr pv }
  | _ => none

end Customer

namespace Reservation

/-- Source `Reservation.to_dict`. -/
def to_dict (r : Reservation) : PyVal :=
  .VDict
    [ ("reservation_id", .VStr r.reservation_id),
      ("customer_id", .VStr r.customer_id),
      ("hotel_id", .VStr r.hotel_id),
      ("check_in", .VStr r.check_in),
      ("check_out", .VStr r.check_out),
      ("status", .VStr r.status) ]

/-- Status values this system writes are the strings of the
`active`/`cancelled` enum, the modeled domain of the `status` field. -/
def asStatus : PyVal → Option String
  | .VStr s => some s
  | _ => none

/-- Source `Reservation.from_dict`: five required string-coerced fields, then
`status` with default `active`. -/
def from_dict (data : PyVal) : Option Reservation :=
  match data with
  | .VDict d => do
      let rv ← dlookup d "reservation_id"
      let cv ← dlookup d "customer_id"
      let hv ← dlookup d "hotel_id"
      let iv ← dlookup d "check_in"
      let ov ← dlookup d "check_out"
      let st ← asStatus (dget d "status" (.VStr "active"))
      some
        { reservation_id := pyStr rv, customer_id := pyStr cv,
          hotel_id := pyStr hv, check_in := pyStr iv,
          check_out := pyStr ov, status := st }
  | _ => none

end Reservation

/-- The shared `load_all` shape (repeated verbatim in the three classes):
empty on a missing file, empty on a parse failure, and otherwise one
independent `from_dict` per stored record, skipping the records on which
it fails and keeping every other record, in file order. -/
def loadStore {α : Type} (fromD : PyVal → Option α) :
    FileState → List (String × α)
  | .absent => []
  | .corrupt => []
  | .content raw =>
      raw.filterMap (fun p => (fromD p.2).map (fun a => (p.1, a)))

/-- The shared `save_all` shape: serialize every record of the mapping
and replace the whole file (the successful-write behavior; a failed
write is reported and leaves the file unchanged). -/
def saveStore {α : Type} (toD : α → PyVal) (l : List (String × α)) :
    FileState :=
  .content (l.map (fun p => (p.1, toD p.2)))

/-- Source `Hotel.load_all`. -/
def Hotel.load_all : FileState → List (String × Hotel) :=
  loadStore Hotel.from_dict

/-- Source `Hotel.save_all`. -/
def Hotel.save_all : List (String × Hotel) → FileState :=
  saveStore Hotel.to_dict

/-- Source `Customer.load_all`. -/
def Customer.load_all : FileState → List (String × Customer) :=
  loadStore Customer.from_dict

/-- Source `Customer.save_all`. -/
def Customer.save_all : List (String × Customer) → FileState :=
  saveStore Customer.to_dict

/-- Source `Reservation.load_all`. -/
def Reservation.load_all : FileState → List (String × Reservation) :=
  loadStore Reservation.from_dict

/-- Source `Reservation.save_all`. -/
def Reservation.save_all : List (String × Reservation) → FileState :=
  saveStore Reservation.to_dict

/-- The three loaded collections a lifecycle operation may touch.  Every
mutating method loads the relevant snapshot, mutates it and saves it
back; with the file layer abstracted (see `roundtrip` theorems), the
saved collection is again an association list. -/
structure SysState : Type where
  hotels : List (String × Hotel)
  customers : List (String × Customer)
  reservations : List (String × Reservation)
deriving DecidableEq, Repr

namespace Hotel

/-- Source `Hotel.reserve_room`: fail on an unknown hotel or on
`available_rooms <= 0`; otherwise decrement `available_rooms`, append
the reservation id to the hotel's list, and save.  Returns the success
flag and the saved (or untouched) collection. -/
def reserve_room (hotels : List (String × Hotel))
    (hotel_id reservation_id : String) :
    Bool × List (String × Hotel) :=
  match dlookup hotels hotel_id with
  | none => (false, hotels)
  | some h =>
      if h.available_rooms ≤ 0 then (false, hotels)
      else
        (true,
         dinsert hotels hotel_id
           { h with available_rooms := h.available_rooms - 1,
                    reservations := h.reservations ++ [reservation_id] })

/-- Source `Hotel.cancel_reservation`: fail on an unknown hotel or when the id
is not recorded in the hotel's list; otherwise remove its first
occurrence (`list.remove`), increment `available_rooms` clamped to
`total_rooms`, and save. -/
def cancel_reservation (hotels : List (String × Hotel))
    (hotel_id reservation_id : String) :
    Bool × List (String × Hotel) :=
  match dlookup hotels hotel_id with
  | none => (false, hotels)
  | some h =>
      if reservation_id ∈ h.reservations then
        (true,
         dinsert hotels hotel_id
           { h with
               reservations := h.reservations.erase reservation_id,
               available_rooms :=
                 min (h.available_rooms + 1) h.total_rooms })
      else (false, hotels)

/-- One keyword argument of `Hotel.modify`.  Python passes dynamically
typed `key=value` pairs; the constructors name the four keys of the
`allowed` set, carrying the field's value, and `other` is any keyword
outside the set (warned about and ignored).  This is the source's
`allowed = set of name, location, rating, total_rooms` check. -/
inductive ModKwarg : Type
  | name (s : String)
  | location (s : String)
  | rating (q : Rat)
  | total_rooms (n : Int)
  | other (key : String)
deriving DecidableEq, Repr

/-- Source `setattr(hotel, key, val)` for one keyword of `Hotel.modify`. -/
def setattrH (h : Hotel) : ModKwarg → Hotel
  | .name s => { h with name := s }
  | .location s => { h with location := s }
  | .rating q => { h with rating := q }
  | .total_rooms n => { h with total_rooms := n }
  | .other _ => h

/-- Source `Hotel.modify`: fail on an unknown hotel; otherwise apply each
keyword in order (unrecognized keys warned and skipped) and save,
reporting success. -/
def modify (hotels : List (String × Hotel)) (hotel_id : String)
    (kwargs : List ModKwarg) :
    Bool × List (String × Hotel) :=
  match dlookup hotels hotel_id with
  | none => (false, hotels)
  | some h =>
      (true, dinsert hotels hotel_id (kwargs.foldl setattrH h))

end Hotel

/-- Source `Customer.get` against a loaded customer collection. -/
def Customer.get (customers : List (String × Customer))
    (customer_id : String) : Option Customer :=
  dlookup customers customer_id

/-- A calendar date as `datetime.strptime` produces it here:
year, month, day (the time fields are all zero). -/
structure Date : Type where
  year : Nat
  month : Nat
  day : Nat
deriving DecidableEq, Repr

/-- Gregorian leap year, as `datetime` uses. -/
def isLeap (y : Nat) : Bool :=
  y % 4 = 0 ∧ (y % 100 ≠ 0 ∨ y % 400 = 0)

/-- Day count of a month, as `datetime` validates. -/
def daysInMonth (y m : Nat) : Nat :=
  if m = 2 then (if isLeap y then 29 else 28)
  else if m = 4 ∨ m = 6 ∨ m = 9 ∨ m = 11 then 30
  else 31

/-- Split a character sequence at every hyphen (the literal separators
of the `YYYY-MM-DD` format). -/
def splitDashes : List Char → List (List Char)
  | [] => [[]]
  | c :: t =>
      if c = '-' then [] :: splitDashes t
      else
        match splitDashes t with
        | [] => [[c]]
        | h :: t2 => (c :: h) :: t2

/-- Source `datetime.strptime(s, percent-Y-m-d)`: a 4-digit year, a 1-2 digit
month, a 1-2 digit day separated by literal hyphens, consuming the whole
string, followed by `datetime`'s calendar validation (year at least 1,
month 1-12, day within the month). -/
def strptimeYmd (s : String) : Option Date :=
  match splitDashes s.toList with
  | [ys, ms, ds] =>
      if ys.length = 4 ∧ ys.all Char.isDigit ∧
         1 ≤ ms.length ∧ ms.length ≤ 2 ∧ ms.all Char.isDigit ∧
         1 ≤ ds.length ∧ ds.length ≤ 2 ∧ ds.all Char.isDigit then
        let y := ys.foldl (fun a c => a * 10 + (c.toNat - '0'.toNat)) 0
        let m := ms.foldl (fun a c => a * 10 + (c.toNat - '0'.toNat)) 0
        let d := ds.foldl (fun a c => a * 10 + (c.toNat - '0'.toNat)) 0
        if 1 ≤ y ∧ 1 ≤ m ∧ m ≤ 12 ∧ 1 ≤ d ∧ d ≤ daysInMonth y m then
          some ⟨y, m, d⟩
        else none
      else none
  | _ => none

/-- Source `datetime` comparison on same-time datetimes: lexicographic on
(year, month, day). -/
def Date.le (a b : Date) : Bool :=
  a.year < b.year ∨
  (a.year = b.year ∧
    (a.month < b.month ∨ (a.month = b.month ∧ a.day ≤ b.day)))

namespace Reservation

/-- Source `Reservation.validate_dates`: both strings must parse under the
fixed `YYYY-MM-DD` format; a parse failure or `date_out <= date_in`
yields the `(None, None)` failure, otherwise the parsed pair. -/
def validate_dates (check_in check_out : String) :
    Option (Date × Date) :=
  match strptimeYmd check_in, strptimeYmd check_out with
  | some date_in, some date_out =>
      if Date.le date_out date_in then none else some (date_in, date_out)
  | _, _ => none

/-- Source `Reservation.create`: (1) date validity, (2) fresh reservation id,
(3) existing customer, (4) `Hotel.reserve_room` (which performs the
inventory decrement and save); only then construct the `active` record,
store it and save.  Returns the created record (or `none`) and the
state after the saves that happened. -/
def create (s : SysState)
    (reservation_id customer_id hotel_id check_in check_out : String) :
    Option Reservation × SysState :=
  match validate_dates check_in check_out with
  | none => (none, s)
  | some _ =>
      if (dlookup s.reservations reservation_id).isSome then (none, s)
      else if (Customer.get s.customers customer_id).isNone then (none, s)
      else
        match Hotel.reserve_room s.hotels hotel_id reservation_id with
        | (false, hotels1) => (none, { s with hotels := hotels1 })
        | (true, hotels1) =>
            let res : Reservation :=
              { reservation_id := reservation_id,
                customer_id := customer_id, hotel_id := hotel_id,
                check_in := check_in, check_out := check_out,
                status := "active" }
            (some res,
             { s with hotels := hotels1,
                      reservations :=
                        dinsert s.reservations reservation_id res })

/-- Source `Reservation.cancel`: fail on an unknown id or an already-cancelled
record; otherwise call `Hotel.cancel_reservation` (its result is not
inspected), flip the status to `cancelled` and save. -/
def cancel (s : SysState) (reservation_id : String) :
    Bool × SysState :=
  match dlookup s.reservations reservation_id with
  | none => (false, s)
  | some res =>
      if res.status = "cancelled" then (false, s)
      else
        let hotels1 :=
          (Hotel.cancel_reservation s.hotels res.hotel_id
            reservation_id).2
        (true,
         { s with hotels := hotels1,
                  reservations :=
                    dinsert s.reservations reservation_id
                      { res with status := "cancelled" } })

end Reservation

/-- The total_rooms field seen through a lookup, for frame statements. -/
def totalRoomsAt (hotels : List (String × Hotel)) (k : String) :
    Option Int :=
  (dlookup hotels k).map Hotel.total_rooms

/-- Number of reservation records referencing hotel `hid` with status
`active`: the `active_reservation_count(H)` of the claim. -/
def activeCount (resvs : List (String × Reservation)) (hid : String) :
    Nat :=
  (resvs.filter
    (fun p => p.2.hotel_id == hid && p.2.status == "active")).length

/-- The claim's invariant, word for word: the hotel exists and its
`available_rooms` plus the number of active reservations referencing it
equals its `total_rooms`. -/
def sumInvariant (s : SysState) (hid : String) : Bool :=
  match dlookup s.hotels hid with
  | none => false
  | some h =>
      h.available_rooms + (activeCount s.reservations hid : Int) ==
        h.total_rooms

/-- An id recorded in hotel `hid`'s ledger refers to a reservation held
in the store, referencing `hid` and still active. -/
def ledgerEntryOk (resvs : List (String × Reservation))
    (hid rid : String) : Bool :=
  match dlookup resvs rid with
  | some r => r.hotel_id == hid && r.status == "active"
  | none => false

/-- A stored reservation that is active at hotel `hid` is recorded in
that hotel's ledger. -/
def strayEntryOk (ledger : List String) (hid : String)
    (p : String × Reservation) : Bool :=
  !(p.2.hotel_id == hid && p.2.status == "active") ||
    decide (p.1 ∈ ledger)

/-- A stored reservation's status is one of the two enum values the
system ever writes. -/
def statusOk (p : String × Reservation) : Bool :=
  p.2.status == "active" || p.2.status == "cancelled"

/-- The consistency invariant between hotel `hid`'s Inventory Ledger
and the Reservation store that the system in fact maintains: unique
store keys, a duplicate-free ledger listing exactly the ids of the
active reservations referencing `hid`, enum-valued statuses, and the
room-count equation.  (An `abbrev` so concrete instances are decidable.) -/
abbrev Consistent (s : SysState) (hid : String) (h : Hotel) : Prop :=
  (dkeys s.hotels).Nodup ∧
  (dkeys s.reservations).Nodup ∧
  h.reservations.Nodup ∧
  h.reservations.all (ledgerEntryOk s.reservations hid) = true ∧
  s.reservations.all (strayEntryOk h.reservations hid) = true ∧
  s.reservations.all statusOk = true ∧
  h.available_rooms + (activeCount s.reservations hid : Int) =
    h.total_rooms

/-- A sequence of lifecycle operations restricted to hotel `hid`, each
successful: `RunOk hid s s2` holds when some chain of
`Reservation.create` calls targeting `hid` and `Reservation.cancel`
calls on reservations referencing `hid`, every one of them succeeding,
leads from state `s` to state `s2`. -/
inductive RunOk (hid : String) : SysState → SysState → Prop
  | nil (s : SysState) : RunOk hid s s
  | createStep {s s1 s2 : SysState} {rid cid ci co : String}
      {r : Reservation}
      (hstep : Reservation.create s rid cid hid ci co = (some r, s1))
      (hrest : RunOk hid s1 s2) : RunOk hid s s2
  | cancelStep {s s1 s2 : SysState} {rid : String} {res : Reservation}
      (hres : dlookup s.reservations rid = some res)
      (hhid : res.hotel_id = hid)
      (hstep : Reservation.cancel s rid = (true, s1))
      (hrest : RunOk hid s1 s2) : RunOk hid s s2

/-- A drifted state: hotel H1's ledger records the id `R2` while the
store's only reservation, `R1`, is active at H1 — yet the room counts
still satisfy the sum invariant (1 available + 1 active = 2 total). -/
def driftState : SysState :=
  ⟨[("H1", ⟨"H1", "Grand", "NYC", 5, 2, 1, ["R2"]⟩)], [],
   [("R1", ⟨"R1", "C1", "H1", "2025-01-10", "2025-01-15", "active"⟩)]⟩

/-- A freshly set up state: one hotel with one free room, one customer,
no reservations. -/
def freshState : SysState :=
  ⟨[("H1", ⟨"H1", "Grand", "NYC", 5, 1, 1, []⟩)],
   [("C1", ⟨"C1", "Ann", "ann@mail", "555"⟩)], []⟩

/-! ### Association-list (Python dict) lemmas -/

theorem dlookup_dinsert_self {α : Type} (l : List (String × α))
    (k : String) (v : α) : dlookup (dinsert l k v) k = some v := by
  induction l with
  | nil => simp [dinsert, dlookup]
  | cons p t ih =>
      obtain ⟨k1, w⟩ := p
      by_cases hk : k1 = k
      · subst hk; simp [dinsert, dlookup]
      · simp [dinsert, dlookup, hk, ih]

theorem dlookup_dinsert_ne {α : Type} (l : List (String × α))
    (k k2 : String) (v : α) (hne : k2 ≠ k) :
    dlookup (dinsert l k v) k2 = dlookup l k2 := by
  induction l with
  | nil => simp [dinsert, dlookup, Ne.symm hne]
  | cons p t ih =>
      obtain ⟨k1, w⟩ := p
      by_cases hk : k1 = k
      · subst hk
        simp [dinsert, dlookup, Ne.symm hne]
      · by_cases hk2 : k1 = k2
        · subst hk2
          simp [dinsert, dlookup, hk]
        · simp [dinsert, dlookup, hk, hk2, ih]

theorem dlookup_eq_none_iff {α : Type} (l : List (String × α))
    (k : String) : dlookup l k = none ↔ k ∉ dkeys l := by
  induction l with
  | nil => simp [dlookup, dkeys]
  | cons p t ih =>
      obtain ⟨k1, w⟩ := p
      by_cases hk : k1 = k
      · subst hk; simp [dlookup, dkeys]
      · simp [dlookup, dkeys, hk, ih, Ne.symm hk]

theorem dinsert_of_dlookup_none {α : Type} (l : List (String × α))
    (k : String) (v : α) (hnone : dlookup l k = none) :
    dinsert l k v = l ++ [(k, v)] := by
  induction l with
  | nil => simp [dinsert]
  | cons p t ih =>
      obtain ⟨k1, w⟩ := p
      by_cases hk : k1 = k
      · subst hk; simp [dlookup] at hnone
      · simp [dlookup, hk] at hnone
        simp [dinsert, hk, ih hnone]

theorem dkeys_dinsert_of_mem {α : Type} (l : List (String × α))
    (k : String) (v : α) (hmem : k ∈ dkeys l) :
    dkeys (dinsert l k v) = dkeys l := by
  induction l with
  | nil => simp [dkeys] at hmem
  | cons p t ih =>
      obtain ⟨k1, w⟩ := p
      by_cases hk : k1 = k
      · subst hk; simp [dinsert, dkeys]
      · have hmem2 : k ∈ dkeys t := by
          rcases List.mem_cons.mp hmem with heq | ht
          · exact absurd heq.symm hk
          · exact ht
        have ih2 := ih hmem2
        simp [dinsert, dkeys, hk] at ih2 ⊢
        exact ih2

theorem mem_of_dlookup_eq_some {α : Type} {l : List (String × α)}
    {k : String} {v : α} (hl : dlookup l k = some v) : (k, v) ∈ l := by
  induction l with
  | nil => simp [dlookup] at hl
  | cons p t ih =>
      obtain ⟨k1, w⟩ := p
      by_cases hk : k1 = k
      · subst hk
        simp [dlookup] at hl
        simp [hl]
      · simp [dlookup, hk] at hl
        exact List.mem_cons_of_mem _ (ih hl)

theorem dlookup_isSome_iff {α : Type} (l : List (String × α))
    (k : String) : (dlookup l k).isSome = true ↔ k ∈ dkeys l := by
  rcases hval : dlookup l k with _ | v
  · simpa [hval] using (dlookup_eq_none_iff l k).mp hval
  · simp only [Option.isSome_some, true_iff]
    exact List.mem_map_of_mem Prod.fst (mem_of_dlookup_eq_some hval)

theorem dlookup_of_mem_nodup {α : Type} {l : List (String × α)}
    {k : String} {v : α} (hmem : (k, v) ∈ l)
    (hnd : (dkeys l).Nodup) : dlookup l k = some v := by
  induction l with
  | nil => simp at hmem
  | cons p t ih =>
      obtain ⟨k1, w⟩ := p
      have hnd2 : k1 ∉ dkeys t ∧ (dkeys t).Nodup := by
        simpa [dkeys] using hnd
      rcases List.mem_cons.mp hmem with heq | htail
      · cases heq
        simp [dlookup]
      · have hk1 : k1 ≠ k := by
          intro hcontra
          subst hcontra
          exact hnd2.1 (List.mem_map_of_mem Prod.fst htail)
        simp [dlookup, hk1, ih htail hnd2.2]


/-! ### Frame lemmas for the Inventory Ledger -/

theorem reserve_room_fail_frame (hotels : List (String × Hotel))
    (hotel_id reservation_id : String)
    (hfail : (Hotel.reserve_room hotels hotel_id reservation_id).1 = false) :
    (Hotel.reserve_room hotels hotel_id reservation_id).2 = hotels := by
  unfold Hotel.reserve_room at hfail ⊢
  rcases hh : dlookup hotels hotel_id with _ | h
  · simp [hh]
  · simp only [hh] at hfail ⊢
    by_cases ha : h.available_rooms ≤ 0
    · simp [ha]
    · simp [ha] at hfail

theorem cancel_reservation_fail_frame (hotels : List (String × Hotel))
    (hotel_id reservation_id : String)
    (hfail :
      (Hotel.cancel_reservation hotels hotel_id reservation_id).1 = false) :
    (Hotel.cancel_reservation hotels hotel_id reservation_id).2 = hotels := by
  unfold Hotel.cancel_reservation at hfail ⊢
  rcases hh : dlookup hotels hotel_id with _ | h
  · simp [hh]
  · simp only [hh] at hfail ⊢
    by_cases hmem : reservation_id ∈ h.reservations
    · simp [hmem] at hfail
    · simp [hmem]

/-! ### Claim theorems: error handling of the lifecycle operations -/

/-- C2: `Reservation.create` checks, in order, (1) date validity,
(2) that the reservation id is not already present, (3) that the
customer exists, (4) hotel availability via `reserve_room`; the first
failing check short-circuits with no side effects from later checks.
Each conjunct states that a failing check makes `create` return `None`
with every collection unchanged (a failing check (4) performs no save
either); in particular a call whose customer id does not exist leaves
the hotel's `available_rooms` and `reservations` and the reservation
store untouched. -/
theorem c2_create_checks_short_circuit (s : SysState)
    (rid cid hid ci co : String) :
    (Reservation.validate_dates ci co = none →
      Reservation.create s rid cid hid ci co = (none, s)) ∧
    ((dlookup s.reservations rid).isSome = true →
      Reservation.create s rid cid hid ci co = (none, s)) ∧
    (Customer.get s.customers cid = none →
      Reservation.create s rid cid hid ci co = (none, s)) ∧
    ((Hotel.reserve_room s.hotels hid rid).1 = false →
      Reservation.create s rid cid hid ci co = (none, s)) := by
  refine ⟨?_, ?_, ?_, ?_⟩
  · intro hval
    simp [Reservation.create, hval]
  · intro hrid
    unfold Reservation.create
    rcases hv : Reservation.validate_dates ci co with _ | d
    · rfl
    · simp [hrid]
  · intro hcust
    unfold Reservation.create
    rcases hv : Reservation.validate_dates ci co with _ | d
    · rfl
    · by_cases hrid : (dlookup s.reservations rid).isSome
      · simp [hrid]
      · simp [hrid, hcust, Option.isNone_iff_eq_none]
  · intro hfail
    unfold Reservation.create
    rcases hv : Reservation.validate_dates ci co with _ | d
    · rfl
    · by_cases hrid : (dlookup s.reservations rid).isSome
      · simp [hrid]
      · by_cases hcust : (Customer.get s.customers cid).isNone
        · simp [hrid, hcust]
        · have hframe := reserve_room_fail_frame s.hotels hid rid hfail
          rcases hrr : Hotel.reserve_room s.hotels hid rid with ⟨b, hotels1⟩
          rw [hrr] at hfail hframe
          simp only at hfail hframe
          subst hfail
          subst hframe
          simp [hrid, hcust, hrr]

/-- C4: the Inventory Ledger keeps `available_rooms` within
`[0, total_rooms]`: on a hotel whose `available_rooms` is 0,
`reserve_room` always fails and leaves the collection unchanged (no
decrement below 0), and whenever `cancel_reservation` saves a change,
the clamped increment leaves the hotel's `available_rooms` at most its
`total_rooms` (while a failing call, e.g. a redundant one, changes
nothing). -/
theorem c4_inventory_bounds (hotels : List (String × Hotel))
    (hid rid : String) (h : Hotel)
    (hh : dlookup hotels hid = some h) :
    (h.available_rooms = 0 →
      Hotel.reserve_room hotels hid rid = (false, hotels)) ∧
    (∀ hotels2, Hotel.cancel_reservation hotels hid rid = (true, hotels2) →
      ∀ h2, dlookup hotels2 hid = some h2 →
        h2.available_rooms ≤ h2.total_rooms) ∧
    (∀ hotels2,
      Hotel.cancel_reservation hotels hid rid = (false, hotels2) →
        hotels2 = hotels) := by
  refine ⟨?_, ?_, ?_⟩
  · intro hzero
    simp [Hotel.reserve_room, hh, hzero]
  · intro hotels2 hcanc h2 hh2
    unfold Hotel.cancel_reservation at hcanc
    simp only [hh] at hcanc
    by_cases hmem : rid ∈ h.reservations
    · simp only [hmem, if_true] at hcanc
      rw [Prod.mk.injEq] at hcanc
      obtain ⟨-, hins⟩ := hcanc
      rw [← hins, dlookup_dinsert_self] at hh2
      cases hh2
      simp
    · simp [hmem] at hcanc
  · intro hotels2 hcanc
    have hfail : (Hotel.cancel_reservation hotels hid rid).1 = false := by
      rw [hcanc]
    have hfr := cancel_reservation_fail_frame hotels hid rid hfail
    rw [hcanc] at hfr
    exact hfr

/-- C5: cancelling an already-cancelled reservation fails and leaves
the whole state unchanged: no reservation record changes and the hotel
collection (every hotel's `available_rooms` and `reservations`) is
untouched. -/
theorem c5_cancel_cancelled_noop (s : SysState) (rid : String)
    (res : Reservation) (hres : dlookup s.reservations rid = some res)
    (hst : res.status = "cancelled") :
    Reservation.cancel s rid = (false, s) := by
  simp [Reservation.cancel, hres, hst]

/-- C7: cancelling an existing active reservation reports success and
marks the record `cancelled` even when the hotel-side release fails
(hotel deleted, or the id absent from the hotel's ledger): the ledger
failure does not abort the cancellation, and on a failed release the
hotel collection is simply left unchanged. -/
theorem c7_cancel_best_effort (s : SysState) (rid : String)
    (res : Reservation) (hres : dlookup s.reservations rid = some res)
    (hst : res.status = "active") :
    (Reservation.cancel s rid).1 = true ∧
    dlookup (Reservation.cancel s rid).2.reservations rid =
      some { res with status := "cancelled" } ∧
    ((Hotel.cancel_reservation s.hotels res.hotel_id rid).1 = false →
      (Reservation.cancel s rid).2.hotels = s.hotels) := by
  have hneq : res.status ≠ "cancelled" := by
    rw [hst]; decide
  refine ⟨?_, ?_, ?_⟩
  · simp [Reservation.cancel, hres, hneq]
  · simp [Reservation.cancel, hres, hneq, dlookup_dinsert_self]
  · intro hfail
    simp [Reservation.cancel, hres, hneq,
      cancel_reservation_fail_frame s.hotels res.hotel_id rid hfail]

/-- C2 witness: creating a reservation against a hotel with free rooms
but a customer id absent from the (empty) customer store fails and
leaves the whole state, the hotel's inventory included, unchanged. -/
theorem c2_create_checks_short_circuit_witness :
    Reservation.create
      ⟨[("H1", ⟨"H1", "Grand", "NYC", 5, 2, 2, []⟩)], [], []⟩
      "R1" "CX" "H1" "2025-01-10" "2025-01-15" =
      (none, ⟨[("H1", ⟨"H1", "Grand", "NYC", 5, 2, 2, []⟩)], [], []⟩) :=
  (c2_create_checks_short_circuit
    ⟨[("H1", ⟨"H1", "Grand", "NYC", 5, 2, 2, []⟩)], [], []⟩
    "R1" "CX" "H1" "2025-01-10" "2025-01-15").2.2.1 rfl

/-- C4 witness: with zero rooms available, a reservation attempt fails
and changes nothing; and a cancel on a drifted hotel already at full
availability still ends with `available_rooms` at most `total_rooms`. -/
theorem c4_inventory_bounds_witness :
    Hotel.reserve_room
        [("H1", ⟨"H1", "Grand", "NYC", 5, 2, 0, ["R1", "R2"]⟩)]
        "H1" "R3" =
      (false, [("H1", ⟨"H1", "Grand", "NYC", 5, 2, 0, ["R1", "R2"]⟩)]) ∧
    (⟨"H1", "Grand", "NYC", 5, 1, 1, []⟩ : Hotel).available_rooms ≤
      (⟨"H1", "Grand", "NYC", 5, 1, 1, []⟩ : Hotel).total_rooms :=
  ⟨(c4_inventory_bounds
      [("H1", ⟨"H1", "Grand", "NYC", 5, 2, 0, ["R1", "R2"]⟩)]
      "H1" "R3" ⟨"H1", "Grand", "NYC", 5, 2, 0, ["R1", "R2"]⟩ rfl).1 rfl,
   (c4_inventory_bounds
      [("H1", ⟨"H1", "Grand", "NYC", 5, 1, 1, ["R1"]⟩)]
      "H1" "R1" ⟨"H1", "Grand", "NYC", 5, 1, 1, ["R1"]⟩ rfl).2.1
     [("H1", ⟨"H1", "Grand", "NYC", 5, 1, 1, []⟩)] rfl
     ⟨"H1", "Grand", "NYC", 5, 1, 1, []⟩ rfl⟩

/-- C5 witness: cancelling the already-cancelled reservation `R1`
fails and returns the state unchanged. -/
theorem c5_cancel_cancelled_noop_witness :
    Reservation.cancel
      ⟨[], [],
        [("R1",
          ⟨"R1", "C1", "H1", "2025-01-10", "2025-01-15", "cancelled"⟩)]⟩
      "R1" =
    (false,
      ⟨[], [],
        [("R1",
          ⟨"R1", "C1", "H1", "2025-01-10", "2025-01-15", "cancelled"⟩)]⟩) :=
  c5_cancel_cancelled_noop
    ⟨[], [],
      [("R1",
        ⟨"R1", "C1", "H1", "2025-01-10", "2025-01-15", "cancelled"⟩)]⟩
    "R1" ⟨"R1", "C1", "H1", "2025-01-10", "2025-01-15", "cancelled"⟩
    rfl rfl

/-- C7 witness: the hotel of `R1` has been deleted (empty hotel store),
yet cancelling `R1` succeeds and leaves the hotel store unchanged. -/
theorem c7_cancel_best_effort_witness :
    (Reservation.cancel
      ⟨[], [],
        [("R1",
          ⟨"R1", "C1", "H1", "2025-01-10", "2025-01-15", "active"⟩)]⟩
      "R1").1 = true ∧
    (Reservation.cancel
      ⟨[], [],
        [("R1",
          ⟨"R1", "C1", "H1", "2025-01-10", "2025-01-15", "active"⟩)]⟩
      "R1").2.hotels = [] :=
  ⟨(c7_cancel_best_effort
      ⟨[], [],
        [("R1",
          ⟨"R1", "C1", "H1", "2025-01-10", "2025-01-15", "active"⟩)]⟩
      "R1" ⟨"R1", "C1", "H1", "2025-01-10", "2025-01-15", "active"⟩
      rfl rfl).1,
   (c7_cancel_best_effort
      ⟨[], [],
        [("R1",
          ⟨"R1", "C1", "H1", "2025-01-10", "2025-01-15", "active"⟩)]⟩
      "R1" ⟨"R1", "C1", "H1", "2025-01-10", "2025-01-15", "active"⟩
      rfl rfl).2.2 rfl⟩

/-- C6: `validate_dates` fails when either argument does not parse as a
calendar date in the fixed `YYYY-MM-DD` format, fails when the parsed
check-out is not strictly after the parsed check-in (so same-day stays
are rejected), and otherwise returns the parsed pair; in particular the
same-day call on 2025-01-10 fails and the 2025-01-10/2025-01-15 call
returns the two parsed dates. -/
theorem c6_validate_dates (ci co : String) :
    (strptimeYmd ci = none → Reservation.validate_dates ci co = none) ∧
    (strptimeYmd co = none → Reservation.validate_dates ci co = none) ∧
    (∀ din dout, strptimeYmd ci = some din → strptimeYmd co = some dout →
      Reservation.validate_dates ci co =
        (if Date.le dout din then none else some (din, dout))) ∧
    Reservation.validate_dates "2025-01-10" "2025-01-10" = none ∧
    Reservation.validate_dates "2025-01-10" "2025-01-15" =
      some (⟨2025, 1, 10⟩, ⟨2025, 1, 15⟩) := by
  refine ⟨?_, ?_, ?_, by decide, by decide⟩
  · intro hci
    simp [Reservation.validate_dates, hci]
  · intro hco
    unfold Reservation.validate_dates
    rcases hci : strptimeYmd ci with _ | din
    · rfl
    · simp [hco]
  · intro din dout hci hco
    simp [Reservation.validate_dates, hci, hco]

/-- C6 witness: the two scenario calls of the claim, settled through
the theorem's concrete conjuncts. -/
theorem c6_validate_dates_witness :
    Reservation.validate_dates "2025-01-10" "2025-01-10" = none ∧
    Reservation.validate_dates "2025-01-10" "2025-01-15" =
      some (⟨2025, 1, 10⟩, ⟨2025, 1, 15⟩) :=
  ⟨(c6_validate_dates "2025-01-10" "2025-01-10").2.2.2.1,
   (c6_validate_dates "2025-01-10" "2025-01-15").2.2.2.2⟩

/-! ### C3: is total_rooms fixed after creation? -/

theorem foldl_setattrH_total_rooms (kwargs : List Hotel.ModKwarg)
    (h : Hotel)
    (hkw : ∀ n, Hotel.ModKwarg.total_rooms n ∉ kwargs) :
    (kwargs.foldl Hotel.setattrH h).total_rooms = h.total_rooms := by
  induction kwargs generalizing h with
  | nil => rfl
  | cons kw t ih =>
      have hkwt : ∀ n, Hotel.ModKwarg.total_rooms n ∉ t := by
        intro n hmem
        exact hkw n (List.mem_cons_of_mem _ hmem)
      have hstep : (Hotel.setattrH h kw).total_rooms = h.total_rooms := by
        cases kw with
        | total_rooms n => exact absurd (List.mem_cons_self _ _) (hkw n)
        | name s => rfl
        | location s => rfl
        | rating q => rfl
        | other k => rfl
      simp only [List.foldl_cons]
      rw [ih _ hkwt, hstep]

theorem totalRoomsAt_dinsert (hotels : List (String × Hotel))
    (hid k : String) (h h2 : Hotel)
    (hh : dlookup hotels hid = some h)
    (ht : h2.total_rooms = h.total_rooms) :
    totalRoomsAt (dinsert hotels hid h2) k = totalRoomsAt hotels k := by
  unfold totalRoomsAt
  by_cases hk : k = hid
  · subst hk
    rw [dlookup_dinsert_self, hh]
    simp [ht]
  · rw [dlookup_dinsert_ne hotels hid k h2 hk]

/-- C3 counterexample: `Hotel.modify` lists `total_rooms` among its
modifiable fields, so `total_rooms` is not fixed at creation: modifying
the freshly created 100-room hotel `H1` with the keyword
`total_rooms=50` succeeds and changes its `total_rooms` from 100 to
50. -/
theorem c3_modify_changes_total_rooms :
    (Hotel.modify [("H1", ⟨"H1", "Grand", "NYC", 5, 100, 100, []⟩)]
        "H1" [Hotel.ModKwarg.total_rooms 50]).1 = true ∧
    totalRoomsAt [("H1", ⟨"H1", "Grand", "NYC", 5, 100, 100, []⟩)] "H1" =
      some 100 ∧
    totalRoomsAt
      (Hotel.modify [("H1", ⟨"H1", "Grand", "NYC", 5, 100, 100, []⟩)]
        "H1" [Hotel.ModKwarg.total_rooms 50]).2 "H1" = some 50 := by
  refine ⟨rfl, rfl, ?_⟩
  decide

/-- C3 (amended): `total_rooms` is unchanged by every hotel-collection
operation except a `Hotel.modify` call that passes a `total_rooms`
keyword (the field is in the `allowed` set of `modify`): `reserve_room`,
`cancel_reservation`, and any `modify` whose keywords do not include
`total_rooms` leave every hotel's `total_rooms` field as it was. -/
theorem c3_total_rooms_frame (hotels : List (String × Hotel))
    (hid rid k : String) (kwargs : List Hotel.ModKwarg)
    (hkw : ∀ n, Hotel.ModKwarg.total_rooms n ∉ kwargs) :
    totalRoomsAt (Hotel.reserve_room hotels hid rid).2 k =
      totalRoomsAt hotels k ∧
    totalRoomsAt (Hotel.cancel_reservation hotels hid rid).2 k =
      totalRoomsAt hotels k ∧
    totalRoomsAt (Hotel.modify hotels hid kwargs).2 k =
      totalRoomsAt hotels k := by
  refine ⟨?_, ?_, ?_⟩
  · unfold Hotel.reserve_room
    rcases hh : dlookup hotels hid with _ | h
    · rfl
    · by_cases ha : h.available_rooms ≤ 0
      · simp [ha]
      · simp only [ha, if_false]
        exact totalRoomsAt_dinsert hotels hid k h _ hh rfl
  · unfold Hotel.cancel_reservation
    rcases hh : dlookup hotels hid with _ | h
    · rfl
    · by_cases hmem : rid ∈ h.reservations
      · simp only [hmem, if_true]
        exact totalRoomsAt_dinsert hotels hid k h _ hh rfl
      · simp [hmem]
  · unfold Hotel.modify
    rcases hh : dlookup hotels hid with _ | h
    · rfl
    · exact totalRoomsAt_dinsert hotels hid k h _ hh
        (foldl_setattrH_total_rooms kwargs h hkw)

/-- C3 witness: a `modify` call renaming the hotel (no `total_rooms`
keyword) and the ledger operations leave `total_rooms` at 100. -/
theorem c3_total_rooms_frame_witness :
    totalRoomsAt
      (Hotel.modify [("H1", ⟨"H1", "Grand", "NYC", 5, 100, 90, ["R1"]⟩)]
        "H1" [Hotel.ModKwarg.name "Super Grand"]).2 "H1" =
      totalRoomsAt
        [("H1", ⟨"H1", "Grand", "NYC", 5, 100, 90, ["R1"]⟩)] "H1" :=
  (c3_total_rooms_frame
    [("H1", ⟨"H1", "Grand", "NYC", 5, 100, 90, ["R1"]⟩)]
    "H1" "R2" "H1" [Hotel.ModKwarg.name "Super Grand"]
    (by intro n hmem; simp at hmem)).2.2

/-! ### Record Store: serialization round-trip and load error handling -/

theorem pyStrList_map_VStr (l : List String) :
    pyStrList (.VList (l.map .VStr)) = some l := by
  induction l with
  | nil => rfl
  | cons s t ih =>
      simp only [pyStrList, List.map_cons, List.foldr_cons] at ih ⊢
      rw [ih]

theorem hotel_from_to_dict (h : Hotel) :
    Hotel.from_dict (Hotel.to_dict h) = some h := by
  simp [Hotel.from_dict, Hotel.to_dict, dlookup, dget, pyStr, pyFloat,
    pyInt, pyStrList_map_VStr]

theorem customer_from_to_dict (c : Customer) :
    Customer.from_dict (Customer.to_dict c) = some c := by
  simp [Customer.from_dict, Customer.to_dict, dlookup, pyStr]

theorem reservation_from_to_dict (r : Reservation) :
    Reservation.from_dict (Reservation.to_dict r) = some r := by
  simp [Reservation.from_dict, Reservation.to_dict, dlookup, dget,
    pyStr, Reservation.asStatus]

theorem loadStore_saveStore {α : Type} (fromD : PyVal → Option α)
    (toD : α → PyVal) (hft : ∀ a, fromD (toD a) = some a)
    (l : List (String × α)) :
    loadStore fromD (saveStore toD l) = l := by
  induction l with
  | nil => rfl
  | cons p t ih =>
      simp only [loadStore, saveStore] at ih ⊢
      simp [List.filterMap_cons, hft p.2, ih]

/-- C8: saving any collection and loading it back returns the same
collection, record for record and field for field, for each of the
three Record Stores (Hotel, Customer, Reservation). -/
theorem c8_save_load_roundtrip :
    (∀ hs : List (String × Hotel),
      Hotel.load_all (Hotel.save_all hs) = hs) ∧
    (∀ cs : List (String × Customer),
      Customer.load_all (Customer.save_all cs) = cs) ∧
    (∀ rs : List (String × Reservation),
      Reservation.load_all (Reservation.save_all rs) = rs) :=
  ⟨loadStore_saveStore _ _ hotel_from_to_dict,
   loadStore_saveStore _ _ customer_from_to_dict,
   loadStore_saveStore _ _ reservation_from_to_dict⟩

/-- C9: `load_all` returns the empty mapping on an absent backing file
and on unparseable container content (a reported parse failure, no
partial data); and each stored record is deserialized independently: a
record on which `from_dict` fails is skipped while every well-formed
sibling is still returned, so a bad record never aborts the load.  The
final conjunct characterizes the loaded mapping exactly: a binding is
returned iff the raw container holds a value at that key that
deserializes to it. -/
theorem c9_load_all_error_handling :
    Hotel.load_all .absent = [] ∧
    Hotel.load_all .corrupt = [] ∧
    ∀ (raw : List (String × PyVal)) (k : String) (h : Hotel),
      ((k, h) ∈ Hotel.load_all (.content raw) ↔
        ∃ v, (k, v) ∈ raw ∧ Hotel.from_dict v = some h) := by
  refine ⟨rfl, rfl, ?_⟩
  intro raw k h
  show (k, h) ∈ raw.filterMap _ ↔ _
  rw [List.mem_filterMap]
  constructor
  · rintro ⟨⟨k2, v⟩, hmem, hf⟩
    rw [Option.map_eq_some'] at hf
    obtain ⟨a, ha, hpair⟩ := hf
    rw [Prod.mk.injEq] at hpair
    obtain ⟨hk, hv⟩ := hpair
    subst hk
    subst hv
    exact ⟨v, hmem, ha⟩
  · rintro ⟨v, hmem, hf⟩
    exact ⟨(k, v), hmem, by rw [hf]; rfl⟩

/-- C10: for a stored hotel record carrying the five required fields
with coercible values, a missing `available_rooms` field or a missing
`reservations` field — each independently — does not cause the record
to be skipped: with `available_rooms` absent it loads with
`available_rooms` defaulted to its `total_rooms` (whatever the
`reservations` field holds, including its own empty-list default), with
`reservations` absent it loads with the empty list (whatever coercible
`available_rooms` holds), and any record `from_dict` accepts is
returned by `load_all` alongside the rest of the container. -/
theorem c10_missing_optional_fields_default (d : List (String × PyVal))
    (hv nv lv rv tv : PyVal) (q : Rat) (n : Int)
    (hfh : dlookup d "hotel_id" = some hv)
    (hfn : dlookup d "name" = some nv)
    (hfl : dlookup d "location" = some lv)
    (hfr : dlookup d "rating" = some rv)
    (hft : dlookup d "total_rooms" = some tv)
    (hcr : pyFloat rv = some q)
    (hct : pyInt tv = some n) :
    (∀ rs : List String, dlookup d "available_rooms" = none →
      pyStrList (dget d "reservations" (.VList [])) = some rs →
      Hotel.from_dict (.VDict d) =
        some ⟨pyStr hv, pyStr nv, pyStr lv, q, n, n, rs⟩) ∧
    (∀ a : Int, dlookup d "reservations" = none →
      pyInt (dget d "available_rooms" (.VInt n)) = some a →
      Hotel.from_dict (.VDict d) =
        some ⟨pyStr hv, pyStr nv, pyStr lv, q, n, a, []⟩) ∧
    (∀ (raw : List (String × PyVal)) (k : String) (h : Hotel),
      Hotel.from_dict (.VDict d) = some h →
      (k, PyVal.VDict d) ∈ raw →
      (k, h) ∈ Hotel.load_all (.content raw)) := by
  refine ⟨?_, ?_, ?_⟩
  · intro rs hav hcrs
    have hai : pyInt (dget d "available_rooms" (.VInt n)) = some n := by
      simp [dget, hav, pyInt]
    simp [Hotel.from_dict, hfh, hfn, hfl, hfr, hft, hcr, hct, hai,
      hcrs]
  · intro a hrs hca
    have hrsv : pyStrList (dget d "reservations" (.VList [])) =
        some [] := by
      simp [dget, hrs, pyStrList]
    simp [Hotel.from_dict, hfh, hfn, hfl, hfr, hft, hcr, hct, hca,
      hrsv]
  · intro raw k h hfd hmem
    show _ ∈ raw.filterMap _
    rw [List.mem_filterMap]
    exact ⟨(k, .VDict d), hmem, by rw [hfd]; rfl⟩

/-- C10 witness: a record with `reservations` present but
`available_rooms` absent loads with `available_rooms = total_rooms =
100` and the stored list, and a record with `available_rooms` present
but `reservations` absent loads with that value and the empty list. -/
theorem c10_missing_optional_fields_default_witness :
    Hotel.from_dict
      (.VDict
        [ ("hotel_id", .VStr "H1"), ("name", .VStr "Grand"),
          ("location", .VStr "NYC"), ("rating", .VFloat 4),
          ("total_rooms", .VInt 100),
          ("reservations", .VList [.VStr "R1"]) ]) =
      some ⟨"H1", "Grand", "NYC", 4, 100, 100, ["R1"]⟩ ∧
    Hotel.from_dict
      (.VDict
        [ ("hotel_id", .VStr "H1"), ("name", .VStr "Grand"),
          ("location", .VStr "NYC"), ("rating", .VFloat 4),
          ("total_rooms", .VInt 100),
          ("available_rooms", .VInt 7) ]) =
      some ⟨"H1", "Grand", "NYC", 4, 100, 7, []⟩ :=
  ⟨(c10_missing_optional_fields_default
      [ ("hotel_id", .VStr "H1"), ("name", .VStr "Grand"),
        ("location", .VStr "NYC"), ("rating", .VFloat 4),
        ("total_rooms", .VInt 100),
        ("reservations", .VList [.VStr "R1"]) ]
      (.VStr "H1") (.VStr "Grand") (.VStr "NYC") (.VFloat 4)
      (.VInt 100) 4 100 rfl rfl rfl rfl rfl rfl rfl).1
     ["R1"] rfl rfl,
   (c10_missing_optional_fields_default
      [ ("hotel_id", .VStr "H1"), ("name", .VStr "Grand"),
        ("location", .VStr "NYC"), ("rating", .VFloat 4),
        ("total_rooms", .VInt 100),
        ("available_rooms", .VInt 7) ]
      (.VStr "H1") (.VStr "Grand") (.VStr "NYC") (.VFloat 4)
      (.VInt 100) 4 100 rfl rfl rfl rfl rfl rfl rfl).2.1
     7 rfl rfl⟩

/-! ### C1: shape of successful operations and counting lemmas -/

theorem reserve_room_success_shape (hotels : List (String × Hotel))
    (hid rid : String) (hotels1 : List (String × Hotel))
    (hstep : Hotel.reserve_room hotels hid rid = (true, hotels1)) :
    ∃ h : Hotel, dlookup hotels hid = some h ∧
      0 < h.available_rooms ∧
      hotels1 = dinsert hotels hid
        { h with available_rooms := h.available_rooms - 1,
                 reservations := h.reservations ++ [rid] } := by
  unfold Hotel.reserve_room at hstep
  rcases hh : dlookup hotels hid with _ | h
  · simp [hh] at hstep
  · simp only [hh] at hstep
    by_cases ha : h.available_rooms ≤ 0
    · rw [if_pos ha] at hstep; simp at hstep
    · rw [if_neg ha] at hstep
      rw [Prod.mk.injEq] at hstep
      exact ⟨h, rfl, by omega, hstep.2.symm⟩

theorem create_success_shape (s : SysState)
    (rid cid hid ci co : String) (r : Reservation) (s1 : SysState)
    (hstep : Reservation.create s rid cid hid ci co = (some r, s1)) :
    ∃ h : Hotel,
      dlookup s.hotels hid = some h ∧
      dlookup s.reservations rid = none ∧
      0 < h.available_rooms ∧
      r = ⟨rid, cid, hid, ci, co, "active"⟩ ∧
      s1 = { s with
              hotels := dinsert s.hotels hid
                { h with available_rooms := h.available_rooms - 1,
                         reservations := h.reservations ++ [rid] },
              reservations := dinsert s.reservations rid
                ⟨rid, cid, hid, ci, co, "active"⟩ } := by
  unfold Reservation.create at hstep
  rcases hv : Reservation.validate_dates ci co with _ | d
  · simp [hv] at hstep
  · simp only [hv] at hstep
    by_cases hrid : (dlookup s.reservations rid).isSome
    · rw [if_pos hrid] at hstep; simp at hstep
    · rw [if_neg hrid] at hstep
      by_cases hcust : (Customer.get s.customers cid).isNone
      · rw [if_pos hcust] at hstep; simp at hstep
      · rw [if_neg hcust] at hstep
        rcases hrr : Hotel.reserve_room s.hotels hid rid with ⟨b, hotels1⟩
        cases b
        · simp [hrr] at hstep
        · obtain ⟨h, hh, hpos, h1eq⟩ :=
            reserve_room_success_shape s.hotels hid rid hotels1 hrr
          simp only [hrr, Prod.mk.injEq, Option.some.injEq] at hstep
          refine ⟨h, hh, Option.not_isSome_iff_eq_none.mp hrid, hpos,
            hstep.1.symm, ?_⟩
          rw [← hstep.2, h1eq]

theorem cancel_success_shape (s : SysState) (rid : String)
    (s1 : SysState)
    (hstep : Reservation.cancel s rid = (true, s1)) :
    ∃ res : Reservation,
      dlookup s.reservations rid = some res ∧
      res.status ≠ "cancelled" ∧
      s1 = { s with
              hotels :=
                (Hotel.cancel_reservation s.hotels res.hotel_id rid).2,
              reservations := dinsert s.reservations rid
                { res with status := "cancelled" } } := by
  unfold Reservation.cancel at hstep
  rcases hres : dlookup s.reservations rid with _ | res
  · simp [hres] at hstep
  · simp only [hres] at hstep
    by_cases hst : res.status = "cancelled"
    · rw [if_pos hst] at hstep; simp at hstep
    · rw [if_neg hst] at hstep
      simp only [Prod.mk.injEq, true_and] at hstep
      exact ⟨res, rfl, hst, hstep.symm⟩

theorem nodup_append_singleton {a : String} {l : List String}
    (hnd : l.Nodup) (hmem : a ∉ l) : (l ++ [a]).Nodup := by
  simp [List.nodup_append, hnd, hmem]

theorem all_dinsert {α : Type} (l : List (String × α)) (k : String)
    (v : α) (P : String × α → Bool)
    (hnd : (dkeys l).Nodup)
    (hv : P (k, v) = true)
    (hother : ∀ p ∈ l, p.1 ≠ k → P p = true) :
    (dinsert l k v).all P = true := by
  induction l with
  | nil => simp [dinsert, hv]
  | cons p t ih =>
      obtain ⟨k1, w⟩ := p
      have hnd2 : k1 ∉ dkeys t ∧ (dkeys t).Nodup := by
        simpa [dkeys] using hnd
      by_cases hk : k1 = k
      · subst hk
        have hd : dinsert ((k1, w) :: t) k1 v = (k1, v) :: t := by
          simp [dinsert]
        rw [hd, List.all_cons, hv, Bool.true_and, List.all_eq_true]
        intro p hp
        refine hother p (List.mem_cons_of_mem _ hp) ?_
        intro hcontra
        exact hnd2.1 (hcontra ▸ List.mem_map_of_mem Prod.fst hp)
      · have hw : P (k1, w) = true :=
          hother (k1, w) (List.mem_cons_self _ _) hk
        simp only [dinsert, if_neg hk, List.all_cons, hw,
          Bool.true_and]
        exact ih hnd2.2
          (fun p hp hne => hother p (List.mem_cons_of_mem _ hp) hne)

theorem ledgerEntryOk_dinsert_ne (resvs : List (String × Reservation))
    (hid rid x : String) (res2 : Reservation) (hx : x ≠ rid) :
    ledgerEntryOk (dinsert resvs rid res2) hid x =
      ledgerEntryOk resvs hid x := by
  unfold ledgerEntryOk
  rw [dlookup_dinsert_ne resvs rid x res2 hx]

theorem activeCount_append_active (l : List (String × Reservation))
    (hid rid : String) (res : Reservation)
    (hact : (res.hotel_id == hid && res.status == "active") = true) :
    activeCount (l ++ [(rid, res)]) hid = activeCount l hid + 1 := by
  simp [activeCount, List.filter_append, hact]

theorem activeCount_pos (l : List (String × Reservation))
    (hid rid : String) (res : Reservation)
    (hmem : (rid, res) ∈ l)
    (hact : (res.hotel_id == hid && res.status == "active") = true) :
    1 ≤ activeCount l hid := by
  unfold activeCount
  have hmf : (rid, res) ∈ l.filter
      (fun p => p.2.hotel_id == hid && p.2.status == "active") :=
    List.mem_filter.mpr ⟨hmem, hact⟩
  exact List.length_pos_of_mem hmf

theorem activeCount_deactivate (l : List (String × Reservation))
    (hid rid : String) (res res2 : Reservation)
    (hnd : (dkeys l).Nodup)
    (hres : dlookup l rid = some res)
    (hact : (res.hotel_id == hid && res.status == "active") = true)
    (hnact : (res2.hotel_id == hid && res2.status == "active") = false) :
    activeCount l hid = activeCount (dinsert l rid res2) hid + 1 := by
  induction l with
  | nil => simp [dlookup] at hres
  | cons p t ih =>
      obtain ⟨k1, w⟩ := p
      have hnd2 : k1 ∉ dkeys t ∧ (dkeys t).Nodup := by
        simpa [dkeys] using hnd
      by_cases hk : k1 = rid
      · subst hk
        have hw : w = res := by simpa [dlookup] using hres
        subst hw
        simp [dinsert, activeCount, List.filter_cons, hact, hnact]
      · have hres2 : dlookup t rid = some res := by
          simpa [dlookup, hk] using hres
        have iht := ih hnd2.2 hres2
        simp only [dinsert, if_neg hk]
        simp only [activeCount, List.filter_cons] at iht ⊢
        by_cases hp : (w.hotel_id == hid && w.status == "active") = true
        · simp only [hp, if_pos] at iht ⊢
          simp at iht ⊢
          omega
        · simp only [Bool.not_eq_true] at hp
          simp only [hp] at iht ⊢
          simp at iht ⊢
          omega

/-! ### C1: preservation of the consistency invariant -/

theorem create_preserves_consistent {s s1 : SysState}
    {hid rid cid ci co : String} {r : Reservation} {h : Hotel}
    (hh : dlookup s.hotels hid = some h)
    (hcons : Consistent s hid h)
    (hstep : Reservation.create s rid cid hid ci co = (some r, s1)) :
    ∃ h1 : Hotel,
      dlookup s1.hotels hid = some h1 ∧ Consistent s1 hid h1 := by
  obtain ⟨h0, hh0, hridnone, hpos, hr, hs1⟩ :=
    create_success_shape s rid cid hid ci co r s1 hstep
  rw [hh] at hh0
  injection hh0 with hh0
  subst hh0
  obtain ⟨nd_h, nd_r, nd_lg, h_lg, h_stray, h_status, h_sum⟩ := hcons
  have hkeys : hid ∈ dkeys s.hotels := by
    rw [← dlookup_isSome_iff, hh]; rfl
  have hridkeys : rid ∉ dkeys s.reservations :=
    (dlookup_eq_none_iff s.reservations rid).mp hridnone
  have hridnotledger : rid ∉ h.reservations := by
    intro hmem
    have hx := List.all_eq_true.mp h_lg rid hmem
    simp [ledgerEntryOk, hridnone] at hx
  have hresvs1 :
      dinsert s.reservations rid
        (⟨rid, cid, hid, ci, co, "active"⟩ : Reservation) =
      s.reservations ++ [(rid, ⟨rid, cid, hid, ci, co, "active"⟩)] :=
    dinsert_of_dlookup_none s.reservations rid _ hridnone
  have hactnew :
      ((⟨rid, cid, hid, ci, co, "active"⟩ :
          Reservation).hotel_id == hid &&
        (⟨rid, cid, hid, ci, co, "active"⟩ :
          Reservation).status == "active") = true := by
    simp
  subst hs1
  refine ⟨_, dlookup_dinsert_self s.hotels hid _, ?_, ?_, ?_, ?_, ?_,
    ?_, ?_⟩
  · show (dkeys (dinsert s.hotels hid _)).Nodup
    rw [dkeys_dinsert_of_mem s.hotels hid _ hkeys]
    exact nd_h
  · show (dkeys (dinsert s.reservations rid _)).Nodup
    rw [hresvs1]
    have hk : dkeys (s.reservations ++
        [(rid, (⟨rid, cid, hid, ci, co, "active"⟩ : Reservation))]) =
        dkeys s.reservations ++ [rid] := by
      simp [dkeys]
    rw [hk]
    exact nodup_append_singleton nd_r hridkeys
  · exact nodup_append_singleton nd_lg hridnotledger
  · rw [List.all_append, Bool.and_eq_true]
    constructor
    · rw [List.all_eq_true]
      intro x hx
      have hxne : x ≠ rid := fun hc => hridnotledger (hc ▸ hx)
      rw [ledgerEntryOk_dinsert_ne s.reservations hid rid x _ hxne]
      exact List.all_eq_true.mp h_lg x hx
    · simp only [List.all_cons, List.all_nil, Bool.and_true]
      unfold ledgerEntryOk
      rw [dlookup_dinsert_self]
      exact hactnew
  · refine all_dinsert s.reservations rid _ _ nd_r ?_ ?_
    · simp [strayEntryOk]
    · intro p hp hne
      have hold := List.all_eq_true.mp h_stray p hp
      unfold strayEntryOk at hold ⊢
      rcases hb : (p.2.hotel_id == hid && p.2.status == "active") with
        _ | _
      · simp
      · rw [hb] at hold
        simp only [Bool.not_true, Bool.false_or,
          decide_eq_true_eq] at hold ⊢
        exact List.mem_append_left _ hold
  · refine all_dinsert s.reservations rid _ _ nd_r ?_ ?_
    · simp [statusOk]
    · intro p hp _
      exact List.all_eq_true.mp h_status p hp
  · show (h.available_rooms - 1) +
        (activeCount (dinsert s.reservations rid _) hid : Int) =
        h.total_rooms
    rw [hresvs1,
      activeCount_append_active s.reservations hid rid _ hactnew]
    push_cast
    omega

theorem cancel_preserves_consistent {s s1 : SysState}
    {hid rid : String} {res : Reservation} {h : Hotel}
    (hh : dlookup s.hotels hid = some h)
    (hcons : Consistent s hid h)
    (hres : dlookup s.reservations rid = some res)
    (hhid : res.hotel_id = hid)
    (hstep : Reservation.cancel s rid = (true, s1)) :
    ∃ h1 : Hotel,
      dlookup s1.hotels hid = some h1 ∧ Consistent s1 hid h1 := by
  obtain ⟨res0, hres0, hst0, hs1⟩ := cancel_success_shape s rid s1 hstep
  rw [hres] at hres0
  injection hres0 with hres0
  subst hres0
  obtain ⟨nd_h, nd_r, nd_lg, h_lg, h_stray, h_status, h_sum⟩ := hcons
  have hkeys : hid ∈ dkeys s.hotels := by
    rw [← dlookup_isSome_iff, hh]; rfl
  have hridkeys : rid ∈ dkeys s.reservations := by
    rw [← dlookup_isSome_iff, hres]; rfl
  have hmem : (rid, res) ∈ s.reservations := mem_of_dlookup_eq_some hres
  have hst_act : res.status = "active" := by
    have hx := List.all_eq_true.mp h_status _ hmem
    simp only [statusOk, Bool.or_eq_true, beq_iff_eq] at hx
    rcases hx with hA | hC
    · exact hA
    · exact absurd hC hst0
  have hact : (res.hotel_id == hid && res.status == "active") = true := by
    simp [hhid, hst_act]
  have hledger : rid ∈ h.reservations := by
    have hx := List.all_eq_true.mp h_stray _ hmem
    simp only [strayEntryOk, hact, Bool.not_true, Bool.false_or,
      decide_eq_true_eq] at hx
    exact hx
  have hcount1 : 1 ≤ activeCount s.reservations hid :=
    activeCount_pos s.reservations hid rid res hmem hact
  have havail : h.available_rooms + 1 ≤ h.total_rooms := by omega
  have hnact :
      (({ res with status := "cancelled" } :
          Reservation).hotel_id == hid &&
        ({ res with status := "cancelled" } :
          Reservation).status == "active") = false := by
    simp
  have hhotels : (Hotel.cancel_reservation s.hotels res.hotel_id rid).2 =
      dinsert s.hotels hid
        { h with reservations := h.reservations.erase rid,
                 available_rooms := h.available_rooms + 1 } := by
    rw [hhid]
    unfold Hotel.cancel_reservation
    simp only [hh]
    rw [if_pos hledger]
    rw [min_eq_left havail]
  subst hs1
  simp only [hhotels]
  refine ⟨_, dlookup_dinsert_self s.hotels hid _, ?_, ?_, ?_, ?_, ?_,
    ?_, ?_⟩
  · show (dkeys (dinsert s.hotels hid _)).Nodup
    rw [dkeys_dinsert_of_mem s.hotels hid _ hkeys]
    exact nd_h
  · show (dkeys (dinsert s.reservations rid _)).Nodup
    rw [dkeys_dinsert_of_mem s.reservations rid _ hridkeys]
    exact nd_r
  · exact nd_lg.erase rid
  · rw [List.all_eq_true]
    intro x hx
    have hxmem : x ∈ h.reservations := List.mem_of_mem_erase hx
    have hxne : x ≠ rid := by
      intro hc
      subst hc
      exact (List.Nodup.not_mem_erase nd_lg) hx
    rw [ledgerEntryOk_dinsert_ne s.reservations hid rid x _ hxne]
    exact List.all_eq_true.mp h_lg x hxmem
  · refine all_dinsert s.reservations rid _ _ nd_r ?_ ?_
    · simp [strayEntryOk]
    · intro p hp hne
      have hold := List.all_eq_true.mp h_stray p hp
      unfold strayEntryOk at hold ⊢
      rcases hb : (p.2.hotel_id == hid && p.2.status == "active") with
        _ | _
      · simp
      · rw [hb] at hold
        simp only [Bool.not_true, Bool.false_or,
          decide_eq_true_eq] at hold ⊢
        exact (List.mem_erase_of_ne hne).mpr hold
  · refine all_dinsert s.reservations rid _ _ nd_r ?_ ?_
    · simp [statusOk]
    · intro p hp _
      exact List.all_eq_true.mp h_status p hp
  · show (h.available_rooms + 1) +
        (activeCount (dinsert s.reservations rid _) hid : Int) =
        h.total_rooms
    have hdec := activeCount_deactivate s.reservations hid rid res
      { res with status := "cancelled" } nd_r hres hact hnact
    omega

theorem runok_preserves_consistent (hid : String) (s s2 : SysState)
    (hrun : RunOk hid s s2) :
    ∀ h : Hotel, dlookup s.hotels hid = some h → Consistent s hid h →
      ∃ h2, dlookup s2.hotels hid = some h2 ∧ Consistent s2 hid h2 := by
  induction hrun with
  | nil s => exact fun h hh hcons => ⟨h, hh, hcons⟩
  | createStep hstep hrest ih =>
      intro h hh hcons
      obtain ⟨h1, hh1, hcons1⟩ :=
        create_preserves_consistent hh hcons hstep
      exact ih h1 hh1 hcons1
  | cancelStep hres hhid hstep hrest ih =>
      intro h hh hcons
      obtain ⟨h1, hh1, hcons1⟩ :=
        cancel_preserves_consistent hh hcons hres hhid hstep
      exact ih h1 hh1 hcons1

/-- C1 counterexample: the claim fails as stated, because its
precondition — the sum invariant alone — is not preserved.  In
`driftState` the sum invariant holds for H1 (1 available + 1 active =
2 total) although H1's ledger has drifted (it records `R2`, not the
active reservation `R1`).  The one-element sequence consisting of the
successful `Reservation.cancel` of `R1` — a reservation of H1, so the
run is restricted to H1 — is a valid run, yet afterwards the sum
invariant is false: the hotel-side release fails silently, so
`available_rooms` stays 1 while the active count drops to 0. -/
theorem c1_sum_invariant_not_preserved :
    sumInvariant driftState "H1" = true ∧
    RunOk "H1" driftState (Reservation.cancel driftState "R1").2 ∧
    sumInvariant (Reservation.cancel driftState "R1").2 "H1" = false := by
  refine ⟨by decide, ?_, by decide⟩
  exact @RunOk.cancelStep "H1" driftState
    (Reservation.cancel driftState "R1").2
    (Reservation.cancel driftState "R1").2 "R1"
    ⟨"R1", "C1", "H1", "2025-01-10", "2025-01-15", "active"⟩
    rfl rfl rfl (RunOk.nil _)

/-- C1 (amended): for every hotel H and every sequence of successful
`Reservation.create` / `Reservation.cancel` operations restricted to H
(a `RunOk` run), starting from a state where the full consistency
invariant holds for H — the ledger lists exactly the active
reservations referencing H, without duplicates, statuses are enum
values, the store keys are unique, and the sum equation holds — the
hotel afterwards again satisfies `available_rooms(H)` plus the number
of reservations with `hotel_id = H` and status `active` equals
`total_rooms(H)`.  (The claim's own precondition, the sum equation
alone, is refuted by the counterexample.) -/
theorem c1_sum_invariant_preserved (hid : String) (s s2 : SysState)
    (h : Hotel)
    (hh : dlookup s.hotels hid = some h)
    (hcons : Consistent s hid h)
    (hrun : RunOk hid s s2) :
    ∃ h2, dlookup s2.hotels hid = some h2 ∧
      h2.available_rooms + (activeCount s2.reservations hid : Int) =
        h2.total_rooms := by
  obtain ⟨h2, hh2, hcons2⟩ :=
    runok_preserves_consistent hid s s2 hrun h hh hcons
  exact ⟨h2, hh2, hcons2.2.2.2.2.2.2⟩

/-- C1 witness: from the consistent fresh state, creating reservation
`R1` at H1 and then cancelling it is a run restricted to H1 after which
the sum invariant holds for H1. -/
theorem c1_sum_invariant_preserved_witness :
    sumInvariant
      ((Reservation.cancel
        ((Reservation.create freshState "R1" "C1" "H1"
            "2025-01-10" "2025-01-15").2) "R1").2) "H1" = true := by
  have hrun : RunOk "H1" freshState
      ((Reservation.cancel
        ((Reservation.create freshState "R1" "C1" "H1"
            "2025-01-10" "2025-01-15").2) "R1").2) :=
    @RunOk.createStep "H1" freshState
      ⟨[("H1", ⟨"H1", "Grand", "NYC", 5, 1, 0, ["R1"]⟩)],
       [("C1", ⟨"C1", "Ann", "ann@mail", "555"⟩)],
       [("R1",
         ⟨"R1", "C1", "H1", "2025-01-10", "2025-01-15", "active"⟩)]⟩
      ((Reservation.cancel
        ((Reservation.create freshState "R1" "C1" "H1"
            "2025-01-10" "2025-01-15").2) "R1").2)
      "R1" "C1" "2025-01-10" "2025-01-15"
      ⟨"R1", "C1", "H1", "2025-01-10", "2025-01-15", "active"⟩
      rfl
      (@RunOk.cancelStep "H1"
        ⟨[("H1", ⟨"H1", "Grand", "NYC", 5, 1, 0, ["R1"]⟩)],
         [("C1", ⟨"C1", "Ann", "ann@mail", "555"⟩)],
         [("R1",
           ⟨"R1", "C1", "H1", "2025-01-10", "2025-01-15", "active"⟩)]⟩
        ((Reservation.cancel
          ((Reservation.create freshState "R1" "C1" "H1"
              "2025-01-10" "2025-01-15").2) "R1").2)
        ((Reservation.cancel
          ((Reservation.create freshState "R1" "C1" "H1"
              "2025-01-10" "2025-01-15").2) "R1").2)
        "R1"
        ⟨"R1", "C1", "H1", "2025-01-10", "2025-01-15", "active"⟩
        rfl rfl rfl (RunOk.nil _))
  obtain ⟨h2, hh2, hsum⟩ :=
    c1_sum_invariant_preserved "H1" freshState _
      ⟨"H1", "Grand", "NYC", 5, 1, 1, []⟩ rfl (by decide) hrun
  simp only [sumInvariant, hh2]
  exact beq_iff_eq.mpr hsum

end HotelSys
